import Mathlib

/-!
Verification of the spotify-podcast-agent specification.

The repository ships only the `spotify_agent.mcp_server` package initializer
as real code; the orchestration pipeline, the MCP protocol layer and the
queue/pending store are described by the specification (sections 3, 4, 6, 7)
and by documentation sketches.  Those parts are therefore modelled here
directly from the specification text, with the package initializer embedded
from its Python source.
-/

namespace SpotifyAgent

/-- Modelled from the spec: the `Episode` record of section 3 (the Python
`Episode` model is not in the sources).  Identity is the `id` field. -/
structure Episode where
  id : String
  showId : String
  name : String
  description : String
  durationSeconds : Nat
  publishedAt : Nat
deriving Repr, DecidableEq

/-- Modelled from the spec: the `Preference` record of section 3 (the Python
preference model is not in the sources). -/
structure Preference where
  showId : Option String
  showName : Option String
  topics : List String
  minDurationSeconds : Option Nat
  maxDurationSeconds : Option Nat
deriving Repr, DecidableEq

/-- Modelled from the spec: the `Evaluation` record of section 3; the
relevance score lives in the rationals, standing for the float in [0,1]. -/
structure Evaluation where
  episodeId : String
  relevanceScore : ℚ
  summary : String
deriving Repr, DecidableEq

/-- Modelled from the spec: the reason tag of a `PendingEntry` (section 3). -/
inductive PendingReason where
  | noDevice
  | transientFailure
deriving Repr, DecidableEq

/-- Modelled from the spec: the `PendingEntry` record of section 3. -/
structure PendingEntry where
  episode : Episode
  queuedAt : Nat
  reason : PendingReason
deriving Repr, DecidableEq

/-- Modelled from the spec: `markProcessed` of section 4.4, the sole writer
to the ProcessedLedger; the ledger is the append-only list of processed
episode ids, and marking an already present id is a no-op (idempotence
requirement of section 4.4). -/
def markProcessed (ledger : List String) (episodeId : String) : List String :=
  if episodeId ∈ ledger then ledger else ledger ++ [episodeId]

/-- Modelled from the spec: `addPending` of section 4.4 appends an entry to
the Pending Store. -/
def addPending (pending : List PendingEntry) (entry : PendingEntry) :
    List PendingEntry :=
  pending ++ [entry]

/-- Modelled from the spec: `removePending` of section 4.4; a no-op when the
id is absent. -/
def removePending (pending : List PendingEntry) (episodeId : String) :
    List PendingEntry :=
  pending.filter (fun e => e.episode.id ≠ episodeId)

/-- Modelled from the spec: the outcome of the queue module's enqueue-now
operation (section 6 collaborator interface). -/
inductive EnqueueResult where
  | ok
  | noDeviceError
  | transientError
deriving Repr, DecidableEq

/-- Modelled from the spec: the collaborator modules the pipeline calls
through the router (section 6): catalog search, scorer evaluate and queue
enqueue-now.  `enqueueNow` takes the attempt index so that the single
bounded retry of section 4.3 step 4 can observe a changed device state. -/
structure Collaborators where
  search : Preference → Except String (List Episode)
  evaluate : Episode → List Preference → Except String Evaluation
  enqueueNow : String → Nat → EnqueueResult

/-- Modelled from the spec: the agent configuration relevant to one run
(relevance threshold and the per-run episode cap of section 4.3). -/
structure AgentConfig where
  relevance_threshold : ℚ
  max_episodes_per_run : Nat
deriving Repr, DecidableEq

/-- Modelled from the spec: the shared mutable state of a run — the
ProcessedLedger and the Pending Store (sections 3 and 4.4). -/
structure RunState where
  ledger : List String
  pending : List PendingEntry
deriving Repr, DecidableEq

/-- Modelled from the spec: the per-episode result of the Enqueuing step. -/
inductive EpisodeOutcome where
  | enqueued
  | deferred (reason : PendingReason)
  | irrelevant
deriving Repr, DecidableEq

/-- Modelled from the spec: the run summary of section 4.3 step 5, the only
externally visible result of a pipeline run. -/
structure RunSummary where
  fetched : Nat
  filtered : Nat
  scored : Nat
  enqueued : Nat
  deferred : Nat
  perPreferenceErrors : Nat
deriving Repr, DecidableEq

/-- Modelled from the spec: the Fetching step (section 4.3 step 1): call the
catalog search for each Preference; a failing Preference is recorded, not
fatal.  Returns the fetched candidates, each tagged with the Preference it
came from, and the per-Preference error count. -/
def fetchStep (c : Collaborators) : List Preference →
    List (Preference × Episode) × Nat
  | [] => ([], 0)
  | p :: rest =>
    let r := fetchStep c rest
    match c.search p with
    | .ok eps => (eps.map (fun e => (p, e)) ++ r.1, r.2)
    | .error _ => (r.1, r.2 + 1)

/-- Modelled from the spec: the duration window test of the Filtering step —
an episode passes when its duration lies within the Preference's
`[minDurationSeconds, maxDurationSeconds]`, each bound checked only when
set. -/
def withinDuration (p : Preference) (e : Episode) : Bool :=
  (match p.minDurationSeconds with
   | none => true
   | some lo => decide (lo ≤ e.durationSeconds)) &&
  (match p.maxDurationSeconds with
   | none => true
   | some hi => decide (e.durationSeconds ≤ hi))

/-- Modelled from the spec: the survival predicate of the Filtering step —
not already in the ProcessedLedger and inside the duration window. -/
def keepCandidate (ledger : List String) (pe : Preference × Episode) : Bool :=
  !(ledger.contains pe.2.id) && withinDuration pe.1 pe.2

/-- Modelled from the spec: the Filtering step (section 4.3 step 2): drop
already-processed ids, drop episodes outside the duration window, then cap
at the per-run maximum preserving discovery order. -/
def filterStep (cfg : AgentConfig) (ledger : List String)
    (cands : List (Preference × Episode)) : List (Preference × Episode) :=
  (cands.filter (keepCandidate ledger)).take cfg.max_episodes_per_run

/-- Modelled from the spec: the Scoring step (section 4.3 step 3): call the
scorer for each surviving candidate; a failing candidate is skipped, never
aborting the run.  Each successful Evaluation is kept with its Episode. -/
def scoreStep (c : Collaborators) (prefs : List Preference)
    (cands : List (Preference × Episode)) : List (Episode × Evaluation) :=
  cands.filterMap
    (fun pe =>
      match c.evaluate pe.2 prefs with
      | .ok ev => some (pe.2, ev)
      | .error _ => none)

/-- Modelled from the spec: processing of one scored candidate in the
Enqueuing step (section 4.3 step 4), instrumented with a flag recording
whether the queue module's enqueue-now operation was attempted.  At or
above the threshold the enqueue is attempted: success enqueues, a
no-device failure defers with reason `NoDevice`, a transient failure is
retried once and then defers with reason `TransientFailure`.  Below the
threshold the episode is decided irrelevant.  Every branch marks the
episode id processed exactly once via `markProcessed`. -/
def processScoredT (c : Collaborators) (cfg : AgentConfig) (now : Nat)
    (st : RunState) (pr : Episode × Evaluation) :
    RunState × EpisodeOutcome × Bool :=
  if cfg.relevance_threshold ≤ pr.2.relevanceScore then
    match c.enqueueNow pr.1.id 0 with
    | .ok =>
        ({ st with ledger := markProcessed st.ledger pr.1.id },
         .enqueued, true)
    | .noDeviceError =>
        ({ ledger := markProcessed st.ledger pr.1.id,
           pending := addPending st.pending ⟨pr.1, now, .noDevice⟩ },
         .deferred .noDevice, true)
    | .transientError =>
        match c.enqueueNow pr.1.id 1 with
        | .ok =>
            ({ st with ledger := markProcessed st.ledger pr.1.id },
             .enqueued, true)
        | _ =>
            ({ ledger := markProcessed st.ledger pr.1.id,
               pending := addPending st.pending ⟨pr.1, now, .transientFailure⟩ },
             .deferred .transientFailure, true)
  else
    ({ st with ledger := markProcessed st.ledger pr.1.id }, .irrelevant, false)

/-- Modelled from the spec: processing of one scored candidate, without the
instrumentation flag. -/
def processScored (c : Collaborators) (cfg : AgentConfig) (now : Nat)
    (st : RunState) (pr : Episode × Evaluation) : RunState × EpisodeOutcome :=
  ((processScoredT c cfg now st pr).1, (processScoredT c cfg now st pr).2.1)

/-- Modelled from the spec: the Enqueuing step (section 4.3 step 4) over the
whole scored list, threading the run state and collecting per-episode
outcomes in order. -/
def enqueueStep (c : Collaborators) (cfg : AgentConfig) (now : Nat) :
    RunState → List (Episode × Evaluation) →
    RunState × List EpisodeOutcome
  | st, [] => (st, [])
  | st, pr :: rest =>
    let r := processScored c cfg now st pr
    let t := enqueueStep c cfg now r.1 rest
    (t.1, r.2 :: t.2)

/-- Count of enqueued outcomes. -/
def countEnqueued (outs : List EpisodeOutcome) : Nat :=
  (outs.filter (fun o => o = .enqueued)).length

/-- Decision whether an outcome is a deferral. -/
def isDeferredOutcome (o : EpisodeOutcome) : Bool :=
  match o with
  | .deferred _ => true
  | _ => false

/-- Count of deferred outcomes. -/
def countDeferred (outs : List EpisodeOutcome) : Nat :=
  (outs.filter isDeferredOutcome).length

/-- Modelled from the spec: the result of one pipeline run — the summary of
section 4.3 step 5, the final shared state, and the Evaluations produced
during the run. -/
structure RunResult where
  summary : RunSummary
  state : RunState
  evaluations : List Evaluation
deriving Repr, DecidableEq

/-- Modelled from the spec: one full Discovery Pipeline run (section 4.3):
Fetching, Filtering, Scoring, Enqueuing, Finalizing.  The Python
orchestrator (`mcp_agent`) is not in the sources; this follows the staged
description of the specification. -/
def runPipeline (c : Collaborators) (cfg : AgentConfig) (now : Nat)
    (prefs : List Preference) (st : RunState) : RunResult :=
  let fetched := fetchStep c prefs
  let survivors := filterStep cfg st.ledger fetched.1
  let scored := scoreStep c prefs survivors
  let final := enqueueStep c cfg now st scored
  { summary :=
      { fetched := fetched.1.length
        filtered := survivors.length
        scored := scored.length
        enqueued := countEnqueued final.2
        deferred := countDeferred final.2
        perPreferenceErrors := fetched.2 }
    state := final.1
    evaluations := scored.map (fun pr => pr.2) }

/-- Modelled from the spec: the error taxonomy of registry invocation
(section 4.1): `NotFound`, `SchemaMismatch`, or a domain error propagated
unchanged from the handler. -/
inductive InvokeError (ε : Type) where
  | notFound
  | schemaMismatch
  | domain (e : ε)
deriving Repr, DecidableEq

/-- Modelled from the spec: an `Operation` of the data model (section 3):
a name, a declared input schema under which arguments are structurally
validated, and a handler that returns a result or a domain error. -/
structure Operation (α β ε : Type) where
  name : String
  inputSchema : α → Bool
  handler : α → Except ε β

/-- Lookup of an operation by name in an Operation Registry. -/
def findOp {α β ε : Type} (reg : List (Operation α β ε)) (name : String) :
    Option (Operation α β ε) :=
  reg.find? (fun op => op.name == name)

/-- Modelled from the spec: `invoke` of the Operation Registry (section
4.1), instrumented with a flag recording whether the underlying handler was
called.  An absent name fails with `NotFound`; arguments failing structural
validation fail with `SchemaMismatch` without calling the handler;
otherwise the handler's result is returned, a domain error propagating
unchanged. -/
def invokeT {α β ε : Type} (reg : List (Operation α β ε)) (name : String)
    (args : α) : Except (InvokeError ε) β × Bool :=
  match findOp reg name with
  | none => (.error .notFound, false)
  | some op =>
    if op.inputSchema args then
      match op.handler args with
      | .ok b => (.ok b, true)
      | .error e => (.error (.domain e), true)
    else
      (.error .schemaMismatch, false)

/-- Modelled from the spec: `invoke` of the Operation Registry (section
4.1), without the instrumentation flag. -/
def invoke {α β ε : Type} (reg : List (Operation α β ε)) (name : String)
    (args : α) : Except (InvokeError ε) β :=
  (invokeT reg name args).1

/-- Modelled from the spec: a `Resource` of the data model (section 3); the
URI pattern is matched exactly here, the most-specific-pattern refinement
being irrelevant to the claims below. -/
structure Resource (β : Type) where
  uriPattern : String
  name : String
  mimeType : String
  accessor : Unit → β

/-- Modelled from the spec: a Capability Module (section 3): a unique name,
a version, an Operation Registry and a Resource Registry. -/
structure CapabilityModule (α β : Type) where
  name : String
  version : String
  operations : List (Operation α β String)
  resources : List (Resource β)

/-- Modelled from the spec: the request Envelope of section 3/6. -/
inductive EnvelopeKind where
  | call
  | read
deriving Repr, DecidableEq

/-- Modelled from the spec: the request Envelope
`(id, moduleName, kind, target, arguments?)` of section 3. -/
structure RequestEnvelope (α : Type) where
  id : String
  moduleName : String
  kind : EnvelopeKind
  target : String
  arguments : Option α

/-- Modelled from the spec: the `(kind, message)` error shape of the
response Envelope. -/
structure ErrorInfo where
  kind : String
  message : String
deriving Repr, DecidableEq

/-- Modelled from the spec: the response Envelope
`(id, ok, result?, error?)` of section 3. -/
structure ResponseEnvelope (β : Type) where
  id : String
  ok : Bool
  result : Option β
  error : Option ErrorInfo
deriving Repr, DecidableEq

/-- Error shaping of an invocation error into the uniform Envelope error
without losing the original kind (section 4.2). -/
def errorInfoOf (e : InvokeError String) : ErrorInfo :=
  match e with
  | .notFound => ⟨"NotFound", "operation not found"⟩
  | .schemaMismatch => ⟨"SchemaMismatch", "arguments fail schema validation"⟩
  | .domain msg => ⟨"DomainError", msg⟩

/-- Modelled from the spec: the Dispatch Router (section 4.2): resolve the
module by name, then delegate a `call` to its Operation Registry or a
`read` to its Resource Registry, wrapping any failure in the standard
Envelope error shape.  The response reuses the request's `id`. -/
def dispatch {α β : Type} (router : List (CapabilityModule α β))
    (req : RequestEnvelope α) : ResponseEnvelope β :=
  match router.find? (fun m => m.name == req.moduleName) with
  | none =>
      { id := req.id, ok := false, result := none,
        error := some ⟨"UnknownModule", req.moduleName⟩ }
  | some m =>
    match req.kind with
    | .call =>
      match req.arguments with
      | none =>
          { id := req.id, ok := false, result := none,
            error := some (errorInfoOf .schemaMismatch) }
      | some args =>
        match invoke m.operations req.target args with
        | .ok b =>
            { id := req.id, ok := true, result := some b, error := none }
        | .error e =>
            { id := req.id, ok := false, result := none,
              error := some (errorInfoOf e) }
    | .read =>
      match m.resources.find? (fun r => r.uriPattern == req.target) with
      | none =>
          { id := req.id, ok := false, result := none,
            error := some ⟨"ResourceNotFound", req.target⟩ }
      | some r =>
          { id := req.id, ok := true, result := some (r.accessor ()),
            error := none }

/-- Outcome of the Python import of the enhanced servers in
`spotify_agent/mcp_server/__init__.py`: the import statement either
succeeds or raises `ImportError` (the only exception the source catches). -/
inductive EnhancedImport where
  | ok
  | importError
deriving Repr, DecidableEq

/-- The eight core exports always placed in `__all__` by
`spotify_agent/mcp_server/__init__.py`. -/
def coreExports : List String :=
  ["MCPServer", "MCPClient", "MCPMessage", "MCPResource", "MCPTool",
   "SpotifyMCPServer", "LLMMCPServer", "QueueMCPServer"]

/-- The two enhanced-server exports of
`spotify_agent/mcp_server/__init__.py`. -/
def enhancedExports : List String :=
  ["EmailMCPServer", "CalendarMCPServer"]

/-- The observable state of the loaded `spotify_agent.mcp_server` package:
the `ENHANCED_SERVERS_AVAILABLE` flag and the `__all__` list. -/
structure McpServerPackage where
  enhancedServersAvailable : Bool
  allExports : List String
deriving Repr, DecidableEq

/-- Embedding of the module body of
`src/spotify_agent/mcp_server/__init__.py`: the enhanced servers are
brought in with a fallback — on `ImportError` the flag is `False`; `__all__`
is the core list, extended with the enhanced names when the flag is
`True`.  The function is total: an `ImportError` from the enhanced import
never prevents the package from loading. -/
def importMcpServerPackage (outcome : EnhancedImport) : McpServerPackage :=
  let available :=
    match outcome with
    | .ok => true
    | .importError => false
  { enhancedServersAvailable := available
    allExports :=
      if available then coreExports ++ enhancedExports else coreExports }

/-- Concrete episode used in scenario instances. -/
def exEpisodeA : Episode := ⟨"a", "s", "Episode A", "", 900, 0⟩

/-- Concrete episode used in scenario instances. -/
def exEpisodeB : Episode := ⟨"b", "s", "Episode B", "", 900, 0⟩

/-- Concrete episode that the scenario scorer rejects. -/
def exEpisodeBad : Episode := ⟨"bad", "s", "Episode Bad", "", 900, 0⟩

/-- Concrete topic Preference without duration bounds. -/
def exPref : Preference := ⟨none, none, ["ai"], none, none⟩

/-- Concrete topic Preference with a 600-second minimum duration, from the
Filtering scenario of section 8. -/
def exPrefMin : Preference := ⟨none, none, ["ai"], some 600, none⟩

/-- Concrete 500-second episode from the Filtering scenario of section 8. -/
def exEp500 : Episode := ⟨"e500", "s", "Short", "", 500, 0⟩

/-- Concrete 900-second episode from the Filtering scenario of section 8. -/
def exEp900 : Episode := ⟨"e900", "s", "Long", "", 900, 0⟩

/-- Concrete collaborators: the catalog returns the given episodes, the
scorer scores every episode 0.9, the queue accepts every enqueue. -/
def exCollab (eps : List Episode) : Collaborators :=
  ⟨fun _ => .ok eps, fun e _ => .ok ⟨e.id, mkRat 9 10, "ok"⟩, fun _ _ => .ok⟩

/-- Concrete collaborators whose catalog search always fails. -/
def exCollabFailSearch : Collaborators :=
  ⟨fun _ => .error "search failed", fun e _ => .ok ⟨e.id, mkRat 9 10, "ok"⟩,
   fun _ _ => .ok⟩

/-- Concrete collaborators whose scorer scores every episode 0.1. -/
def exCollabLowScore : Collaborators :=
  ⟨fun _ => .ok [exEpisodeA], fun e _ => .ok ⟨e.id, mkRat 1 10, "ok"⟩,
   fun _ _ => .ok⟩

/-- Concrete collaborators whose queue never has a device. -/
def exCollabNoDevice : Collaborators :=
  ⟨fun _ => .ok [exEpisodeA], fun e _ => .ok ⟨e.id, mkRat 9 10, "ok"⟩,
   fun _ _ => .noDeviceError⟩

/-- Concrete collaborators whose scorer fails on the episode with id
`bad` and scores every other episode 0.9. -/
def exCollabFailBad : Collaborators :=
  ⟨fun _ => .ok [exEpisodeA, exEpisodeBad, exEpisodeB],
   fun e _ =>
     if e.id = "bad" then .error "scorer down" else .ok ⟨e.id, mkRat 9 10, "ok"⟩,
   fun _ _ => .ok⟩

/-- Concrete operation doubling small numbers; its schema admits only
arguments below 10. -/
def exOpDouble : Operation Nat Nat String :=
  ⟨"double", fun n => decide (n < 10), fun n => .ok (2 * n)⟩

/-- Concrete operation whose handler always fails with a domain error. -/
def exOpBoom : Operation Nat Nat String :=
  ⟨"boom", fun _ => true, fun _ => .error "domain failure"⟩

/-- Concrete Operation Registry holding the two example operations. -/
def exRegistry : List (Operation Nat Nat String) := [exOpDouble, exOpBoom]

/-! Helper lemmas about the modelled operations. -/

/-- Every branch of the per-episode Enqueuing step marks the episode id
processed via `markProcessed`. -/
theorem processScoredT_ledger (c : Collaborators) (cfg : AgentConfig)
    (now : Nat) (st : RunState) (pr : Episode × Evaluation) :
    (processScoredT c cfg now st pr).1.ledger
      = markProcessed st.ledger pr.1.id := by
  unfold processScoredT
  split
  · split
    · rfl
    · rfl
    · split
      · rfl
      · rfl
  · rfl

/-- The uninstrumented per-episode step marks the id the same way. -/
theorem processScored_ledger (c : Collaborators) (cfg : AgentConfig)
    (now : Nat) (st : RunState) (pr : Episode × Evaluation) :
    (processScored c cfg now st pr).1.ledger
      = markProcessed st.ledger pr.1.id :=
  processScoredT_ledger c cfg now st pr

/-- The instrumentation flag of the per-episode Enqueuing step holds exactly
when the Evaluation reached the relevance threshold. -/
theorem processScoredT_flag (c : Collaborators) (cfg : AgentConfig)
    (now : Nat) (st : RunState) (pr : Episode × Evaluation) :
    (processScoredT c cfg now st pr).2.2
      = decide (cfg.relevance_threshold ≤ pr.2.relevanceScore) := by
  unfold processScoredT
  split
  · next h =>
    split
    · simp [h]
    · simp [h]
    · split
      · simp [h]
      · simp [h]
  · next h => simp [h]

/-- Membership after `markProcessed`. -/
theorem mem_markProcessed (l : List String) (a b : String) :
    a ∈ markProcessed l b ↔ a ∈ l ∨ a = b := by
  unfold markProcessed
  split
  · next h =>
    constructor
    · exact Or.inl
    · rintro (h' | rfl)
      · exact h'
      · exact h
  · simp

/-- `markProcessed` preserves the no-duplicates invariant of the ledger. -/
theorem nodup_markProcessed (l : List String) (b : String) (h : l.Nodup) :
    (markProcessed l b).Nodup := by
  unfold markProcessed
  split
  · exact h
  · next hb => simp [List.nodup_append, h, hb]

/-- Membership after folding `markProcessed` over a list of ids. -/
theorem mem_foldl_markProcessed (ids : List String) :
    ∀ (l : List String) (a : String),
      a ∈ ids.foldl markProcessed l ↔ a ∈ l ∨ a ∈ ids := by
  induction ids with
  | nil => simp
  | cons b rest ih =>
    intro l a
    rw [List.foldl_cons, ih, mem_markProcessed, List.mem_cons]
    tauto

/-- Folding `markProcessed` preserves the no-duplicates invariant. -/
theorem nodup_foldl_markProcessed (ids : List String) :
    ∀ l : List String, l.Nodup → (ids.foldl markProcessed l).Nodup := by
  induction ids with
  | nil => intro l h; exact h
  | cons b rest ih => intro l h; exact ih _ (nodup_markProcessed l b h)

/-- The ledger after the Enqueuing step is the initial ledger with every
scored episode id marked processed, in order. -/
theorem enqueueStep_ledger (c : Collaborators) (cfg : AgentConfig)
    (now : Nat) (scored : List (Episode × Evaluation)) :
    ∀ st : RunState,
      (enqueueStep c cfg now st scored).1.ledger
        = (scored.map (fun pr => pr.1.id)).foldl markProcessed st.ledger := by
  induction scored with
  | nil => intro st; rfl
  | cons pr rest ih =>
    intro st
    simp only [enqueueStep, List.map_cons, List.foldl_cons]
    rw [ih, processScored_ledger]

/-- The Enqueuing step yields one outcome per scored episode. -/
theorem enqueueStep_length (c : Collaborators) (cfg : AgentConfig)
    (now : Nat) (scored : List (Episode × Evaluation)) :
    ∀ st : RunState,
      (enqueueStep c cfg now st scored).2.length = scored.length := by
  induction scored with
  | nil => intro st; rfl
  | cons pr rest ih =>
    intro st
    simp only [enqueueStep, List.length_cons]
    rw [ih]

/-- Enqueued and deferred outcomes are disjoint, so their counts sum to at
most the number of outcomes. -/
theorem countEnqueued_add_countDeferred_le (outs : List EpisodeOutcome) :
    countEnqueued outs + countDeferred outs ≤ outs.length := by
  induction outs with
  | nil => simp [countEnqueued, countDeferred]
  | cons o rest ih =>
    cases o <;>
      simp only [countEnqueued, countDeferred, List.filter_cons,
        isDeferredOutcome, List.length_cons] <;>
      simp_all [countEnqueued, countDeferred] <;> omega

/-- The Fetching step records at most one error per Preference. -/
theorem fetchStep_errors_le (c : Collaborators) :
    ∀ prefs : List Preference, (fetchStep c prefs).2 ≤ prefs.length := by
  intro prefs
  induction prefs with
  | nil => simp [fetchStep]
  | cons p rest ih =>
    simp only [fetchStep, List.length_cons]
    split <;> omega

/-! Claim theorems. -/

/-- Claim C8: `markProcessed` is idempotent — marking the same id twice
leaves the ProcessedLedger as marking it once — and it is the sole writer
to the ProcessedLedger: the ledger a pipeline run leaves behind is exactly
the initial ledger with some list of ids folded through `markProcessed`. -/
theorem c8_markProcessed_idempotent :
    (∀ (ledger : List String) (i : String),
        markProcessed (markProcessed ledger i) i = markProcessed ledger i) ∧
    (∀ (c : Collaborators) (cfg : AgentConfig) (now : Nat)
        (prefs : List Preference) (st : RunState),
        ∃ ids : List String,
          (runPipeline c cfg now prefs st).state.ledger
            = ids.foldl markProcessed st.ledger) := by
  constructor
  · intro l i
    by_cases h : i ∈ l
    · simp [markProcessed, h]
    · simp [markProcessed, h]
  · intro c cfg now prefs st
    refine ⟨(scoreStep c prefs
        (filterStep cfg st.ledger (fetchStep c prefs).1)).map
          (fun pr => pr.1.id), ?_⟩
    have hst : (runPipeline c cfg now prefs st).state
        = (enqueueStep c cfg now st (scoreStep c prefs
            (filterStep cfg st.ledger (fetchStep c prefs).1))).1 := rfl
    rw [hst, enqueueStep_ledger]

/-- Claim C9: every dispatched response Envelope carries the request's id,
and satisfies the exclusivity invariant: `ok = false` exactly when the
result is absent and an error (kind and message) is present, `ok = true`
exactly when a result is present and the error is absent. -/
theorem c9_envelope_invariant {α β : Type}
    (router : List (CapabilityModule α β)) (req : RequestEnvelope α) :
    (dispatch router req).id = req.id ∧
    ((dispatch router req).ok = false ↔
      (dispatch router req).result = none ∧
        (dispatch router req).error.isSome = true) ∧
    ((dispatch router req).ok = true ↔
      (dispatch router req).result.isSome = true ∧
        (dispatch router req).error = none) := by
  unfold dispatch
  split
  · simp
  · split
    · split
      · simp
      · split <;> simp
    · split <;> simp

/-- Claim C10: the `spotify_agent.mcp_server` package initializer degrades
gracefully: the core exports are always members of `__all__`; when the
enhanced-server import raises `ImportError` the flag is `False` and
`__all__` is exactly the core list, and on success the flag is `True` and
`__all__` is exactly the core list followed by the two enhanced names.
`importMcpServerPackage` is total, so the enhanced import failure never
prevents the package from loading. -/
theorem c10_enhanced_import_fallback (o : EnhancedImport) :
    coreExports.all
      (fun n => (importMcpServerPackage o).allExports.contains n) = true ∧
    importMcpServerPackage .importError
      = ⟨false, coreExports⟩ ∧
    importMcpServerPackage .ok
      = ⟨true, coreExports ++ enhancedExports⟩ := by
  cases o <;> exact ⟨by decide, by decide, by decide⟩

/-- Claim C4: invoking a registered operation with arguments that fail the
declared schema returns `SchemaMismatch` with the handler never called; an
absent name returns `NotFound`; otherwise the handler's result is returned
and a domain error propagates unchanged. -/
theorem c4_registry_invoke {α β ε : Type} (reg : List (Operation α β ε))
    (name : String) (args : α) :
    (findOp reg name = none →
        invokeT reg name args = (.error .notFound, false)) ∧
    (∀ op, findOp reg name = some op → op.inputSchema args = false →
        invokeT reg name args = (.error .schemaMismatch, false)) ∧
    (∀ op b, findOp reg name = some op → op.inputSchema args = true →
        op.handler args = .ok b →
        invokeT reg name args = (.ok b, true)) ∧
    (∀ op e, findOp reg name = some op → op.inputSchema args = true →
        op.handler args = .error e →
        invokeT reg name args = (.error (.domain e), true)) := by
  refine ⟨?_, ?_, ?_, ?_⟩
  · intro h
    unfold invokeT
    rw [h]
  · intro op hf hs
    unfold invokeT
    rw [hf]
    simp [hs]
  · intro op b hf hs hh
    unfold invokeT
    rw [hf]
    simp [hs, hh]
  · intro op e hf hs hh
    unfold invokeT
    rw [hf]
    simp [hs, hh]

/-- Witness for C4 at the concrete example registry: a missing name, a
schema-violating argument, a successful call and a domain failure. -/
theorem c4_registry_invoke_witness :
    invokeT exRegistry "missing" (3 : Nat) = (.error .notFound, false) ∧
    invokeT exRegistry "double" (50 : Nat)
      = (.error .schemaMismatch, false) ∧
    invokeT exRegistry "double" (3 : Nat) = (.ok 6, true) ∧
    invokeT exRegistry "boom" (0 : Nat)
      = (.error (.domain "domain failure"), true) :=
  ⟨(c4_registry_invoke exRegistry "missing" 3).1 rfl,
   (c4_registry_invoke exRegistry "double" 50).2.1 exOpDouble rfl rfl,
   (c4_registry_invoke exRegistry "double" 3).2.2.1 exOpDouble 6 rfl rfl rfl,
   (c4_registry_invoke exRegistry "boom" 0).2.2.2 exOpBoom "domain failure"
     rfl rfl rfl⟩

/-- Claim C3: an enqueue attempt failing with a no-device error yields
exactly one new PendingEntry (reason `NoDevice`) and exactly one
ProcessedLedger addition — never zero of either, never two — and the
episode's outcome is a deferral, not a failure. -/
theorem c3_no_device_defers (c : Collaborators) (cfg : AgentConfig)
    (now : Nat) (st : RunState) (pr : Episode × Evaluation)
    (hscore : cfg.relevance_threshold ≤ pr.2.relevanceScore)
    (hdev : c.enqueueNow pr.1.id 0 = .noDeviceError)
    (hnew : pr.1.id ∉ st.ledger) :
    (processScored c cfg now st pr).1.pending
        = st.pending ++ [⟨pr.1, now, .noDevice⟩] ∧
    (processScored c cfg now st pr).1.pending.length
        = st.pending.length + 1 ∧
    (processScored c cfg now st pr).1.ledger = st.ledger ++ [pr.1.id] ∧
    (processScored c cfg now st pr).1.ledger.count pr.1.id = 1 ∧
    (processScored c cfg now st pr).2 = .deferred .noDevice := by
  have hcount : st.ledger.count pr.1.id = 0 := List.count_eq_zero.mpr hnew
  unfold processScored processScoredT
  rw [if_pos hscore, hdev]
  refine ⟨rfl, by simp [addPending], ?_, ?_, rfl⟩
  · simp [markProcessed, hnew]
  · simp [markProcessed, hnew, List.count_append, hcount]

/-- Witness for C3: with a queue that never has a device, a relevant
episode is deferred with a single `NoDevice` pending entry. -/
theorem c3_no_device_defers_witness :
    ((⟨mkRat 1 2, 5⟩ : AgentConfig).relevance_threshold
        ≤ ((exEpisodeA, ⟨"a", mkRat 9 10, "ok"⟩) : Episode × Evaluation).2.relevanceScore) ∧
    exCollabNoDevice.enqueueNow "a" 0 = .noDeviceError ∧
    (processScored exCollabNoDevice ⟨mkRat 1 2, 5⟩ 7 ⟨[], []⟩
        (exEpisodeA, ⟨"a", mkRat 9 10, "ok"⟩)).1.pending
      = [⟨exEpisodeA, 7, .noDevice⟩] :=
  ⟨by decide, rfl,
   (c3_no_device_defers exCollabNoDevice ⟨mkRat 1 2, 5⟩ 7 ⟨[], []⟩
      (exEpisodeA, ⟨"a", mkRat 9 10, "ok"⟩) (by decide) rfl (by decide)).1⟩

/-- Claim C5: the Filtering step keeps exactly the fetched episodes whose
id is not yet in the ProcessedLedger and whose duration lies within the
Preference's bounds, truncated to the per-run maximum preserving discovery
order; in the section 8 scenario with a 600-second minimum, only the
900-second episode survives and is the only episode evaluated. -/
theorem c5_filtering (cfg : AgentConfig) (ledger : List String)
    (cands : List (Preference × Episode)) :
    filterStep cfg ledger cands
      = (cands.filter (keepCandidate ledger)).take cfg.max_episodes_per_run ∧
    List.Sublist (filterStep cfg ledger cands) cands ∧
    (∀ pe ∈ filterStep cfg ledger cands,
        pe.2.id ∉ ledger ∧ withinDuration pe.1 pe.2 = true) ∧
    (filterStep cfg ledger cands).length
      = min cfg.max_episodes_per_run
          (cands.filter (keepCandidate ledger)).length ∧
    (runPipeline (exCollab [exEp500, exEp900]) ⟨mkRat 1 2, 5⟩ 0 [exPrefMin]
        ⟨[], []⟩).evaluations = [⟨"e900", mkRat 9 10, "ok"⟩] := by
  refine ⟨rfl, ?_, ?_, ?_, by decide⟩
  · exact (List.take_sublist _ _).trans (List.filter_sublist _)
  · intro pe hpe
    have h1 : pe ∈ cands.filter (keepCandidate ledger) :=
      (List.take_sublist _ _).subset hpe
    have h2 := (List.mem_filter.mp h1).2
    simp only [keepCandidate, Bool.and_eq_true, Bool.not_eq_true'] at h2
    refine ⟨?_, h2.2⟩
    have h3 := h2.1
    simp at h3
    exact h3
  · exact List.length_take _ _

/-- Witness for C5: the surviving 900-second episode of the scenario indeed
satisfies the Filtering predicate. -/
theorem c5_filtering_witness :
    ((exPrefMin, exEp900) ∈ filterStep ⟨mkRat 1 2, 5⟩ []
        [(exPrefMin, exEp500), (exPrefMin, exEp900)]) ∧
    ("e900" ∉ ([] : List String) ∧
      withinDuration exPrefMin exEp900 = true) :=
  ⟨by decide,
   (c5_filtering ⟨mkRat 1 2, 5⟩ [] [(exPrefMin, exEp500), (exPrefMin, exEp900)]).2.2.1
     (exPrefMin, exEp900) (by decide)⟩

/-- Claim C6: a scoring failure on one episode only removes that episode
from the scored list: the Evaluations of the other episodes, and the whole
Enqueuing step on them, are exactly as they would be had the failing
episode not been fetched. -/
theorem c6_scoring_failure_isolated (c : Collaborators)
    (prefs : List Preference) (l₁ l₂ : List (Preference × Episode))
    (pe : Preference × Episode) (msg : String)
    (hfail : c.evaluate pe.2 prefs = .error msg) :
    scoreStep c prefs (l₁ ++ pe :: l₂) = scoreStep c prefs (l₁ ++ l₂) ∧
    ∀ (cfg : AgentConfig) (now : Nat) (st : RunState),
      enqueueStep c cfg now st (scoreStep c prefs (l₁ ++ pe :: l₂))
        = enqueueStep c cfg now st (scoreStep c prefs (l₁ ++ l₂)) := by
  have hs : scoreStep c prefs (l₁ ++ pe :: l₂)
      = scoreStep c prefs (l₁ ++ l₂) := by
    unfold scoreStep
    rw [List.filterMap_append, List.filterMap_append]
    congr 1
    rw [List.filterMap_cons]
    simp [hfail]
  exact ⟨hs, fun cfg now st => by rw [hs]⟩

/-- Witness for C6: with a scorer failing on the middle episode, the scored
list equals the one with that episode absent. -/
theorem c6_scoring_failure_isolated_witness :
    exCollabFailBad.evaluate exEpisodeBad [exPref] = .error "scorer down" ∧
    scoreStep exCollabFailBad [exPref]
        ([(exPref, exEpisodeA)] ++ (exPref, exEpisodeBad)
          :: [(exPref, exEpisodeB)])
      = scoreStep exCollabFailBad [exPref]
          ([(exPref, exEpisodeA)] ++ [(exPref, exEpisodeB)]) :=
  ⟨rfl,
   (c6_scoring_failure_isolated exCollabFailBad [exPref]
      [(exPref, exEpisodeA)] [(exPref, exEpisodeB)]
      (exPref, exEpisodeBad) "scorer down" rfl).1⟩

/-- Claim C7: every run returns a summary whose per-field counts are
consistent (enqueued plus deferred never exceed scored, scored never
exceed filtered, filtered never exceed fetched, at most one error per
Preference, scored equals the number of Evaluations), and the counts
distinguish a run that found nothing relevant (positive fetched and
scored, zero errors) from a run where every Preference errored (zero
fetched, positive error count). -/
theorem c7_run_summary (c : Collaborators) (cfg : AgentConfig) (now : Nat)
    (prefs : List Preference) (st : RunState) :
    (runPipeline c cfg now prefs st).summary.enqueued
        + (runPipeline c cfg now prefs st).summary.deferred
      ≤ (runPipeline c cfg now prefs st).summary.scored ∧
    (runPipeline c cfg now prefs st).summary.scored
      ≤ (runPipeline c cfg now prefs st).summary.filtered ∧
    (runPipeline c cfg now prefs st).summary.filtered
      ≤ (runPipeline c cfg now prefs st).summary.fetched ∧
    (runPipeline c cfg now prefs st).summary.perPreferenceErrors
      ≤ prefs.length ∧
    (runPipeline c cfg now prefs st).summary.scored
      = (runPipeline c cfg now prefs st).evaluations.length ∧
    (runPipeline exCollabLowScore ⟨mkRat 7 10, 5⟩ 0 [exPref] ⟨[], []⟩).summary
      = ⟨1, 1, 1, 0, 0, 0⟩ ∧
    (runPipeline exCollabFailSearch ⟨mkRat 7 10, 5⟩ 0 [exPref] ⟨[], []⟩).summary
      = ⟨0, 0, 0, 0, 0, 1⟩ := by
  refine ⟨?_, ?_, ?_, ?_, ?_, by decide, by decide⟩
  · calc countEnqueued (enqueueStep c cfg now st (scoreStep c prefs
          (filterStep cfg st.ledger (fetchStep c prefs).1))).2
          + countDeferred (enqueueStep c cfg now st (scoreStep c prefs
              (filterStep cfg st.ledger (fetchStep c prefs).1))).2
        ≤ (enqueueStep c cfg now st (scoreStep c prefs
            (filterStep cfg st.ledger (fetchStep c prefs).1))).2.length :=
          countEnqueued_add_countDeferred_le _
      _ = (scoreStep c prefs
            (filterStep cfg st.ledger (fetchStep c prefs).1)).length :=
          enqueueStep_length c cfg now _ st
  · exact List.length_filterMap_le _ _
  · exact ((List.take_sublist _ _).trans (List.filter_sublist _)).length_le
  · exact fetchStep_errors_le c prefs
  · exact (List.length_map _ _).symm

/-- Claim C1: in the Enqueuing step, the queue module's enqueue-now
operation is attempted for a scored candidate exactly when its Evaluation's
relevance score is greater than or equal to the configured threshold — the
comparison is inclusive — and in the threshold-0.7 scenario with two
candidates scoring 0.9 and 0.4, exactly one episode is enqueued or
deferred, never two, whatever the queue's device availability. -/
theorem c1_threshold_inclusive :
    (∀ (c : Collaborators) (cfg : AgentConfig) (now : Nat) (st : RunState)
        (pr : Episode × Evaluation),
        ((processScoredT c cfg now st pr).2.2 = true ↔
          cfg.relevance_threshold ≤ pr.2.relevanceScore)) ∧
    (∀ (enq : String → Nat → EnqueueResult) (now : Nat) (st : RunState),
        countEnqueued (enqueueStep
            ⟨fun _ => .error "uncalled", fun _ _ => .error "uncalled", enq⟩
            ⟨mkRat 7 10, 5⟩ now st
            [(exEpisodeA, ⟨"a", mkRat 9 10, "ok"⟩),
             (exEpisodeB, ⟨"b", mkRat 4 10, "ok"⟩)]).2
          + countDeferred (enqueueStep
              ⟨fun _ => .error "uncalled", fun _ _ => .error "uncalled", enq⟩
              ⟨mkRat 7 10, 5⟩ now st
              [(exEpisodeA, ⟨"a", mkRat 9 10, "ok"⟩),
               (exEpisodeB, ⟨"b", mkRat 4 10, "ok"⟩)]).2 = 1) := by
  have hya : (mkRat 7 10 : ℚ) ≤ mkRat 9 10 := by decide
  have hnb : ¬ ((mkRat 7 10 : ℚ) ≤ mkRat 4 10) := by decide
  constructor
  · intro c cfg now st pr
    rw [processScoredT_flag]
    exact decide_eq_true_iff
  · intro enq now st
    cases h0 : enq "a" 0 with
    | ok =>
      simp [enqueueStep, processScored, processScoredT, exEpisodeA,
        exEpisodeB, h0, hya, hnb, countEnqueued, countDeferred,
        isDeferredOutcome]
    | noDeviceError =>
      simp [enqueueStep, processScored, processScoredT, exEpisodeA,
        exEpisodeB, h0, hya, hnb, countEnqueued, countDeferred,
        isDeferredOutcome]
    | transientError =>
      cases h1 : enq "a" 1 <;>
        simp [enqueueStep, processScored, processScoredT, exEpisodeA,
          exEpisodeB, h0, h1, hya, hnb, countEnqueued, countDeferred,
          isDeferredOutcome]

/-- Counterexample to claim C2 as stated: with a per-run cap of 1 and two
candidates from an unchanged catalog, the second run produces a new
Evaluation — of the episode the first run's Filtering cap truncated away —
so the second run does not yield zero new Evaluations. -/
theorem c2_counterexample :
    (runPipeline (exCollab [exEpisodeA, exEpisodeB]) ⟨mkRat 1 2, 1⟩ 0
        [exPref]
        (runPipeline (exCollab [exEpisodeA, exEpisodeB]) ⟨mkRat 1 2, 1⟩ 0
          [exPref] ⟨[], []⟩).state).evaluations ≠ [] := by
  decide

/-- Claim C2 (amended): provided the first run's Filtering cap does not
truncate — every candidate surviving the dedup and duration checks fits
within the per-run maximum — an id present in the ProcessedLedger is never
re-evaluated: a second run on the unchanged candidate set produces zero
new Evaluations, and each processed episode id is present in the ledger
exactly once (the initial ledger being duplicate-free). -/
theorem c2_no_reevaluation_when_within_cap (c : Collaborators)
    (cfg : AgentConfig) (now now' : Nat) (prefs : List Preference)
    (st : RunState) (hnodup : st.ledger.Nodup)
    (hcap : ((fetchStep c prefs).1.filter
        (keepCandidate st.ledger)).length ≤ cfg.max_episodes_per_run) :
    (runPipeline c cfg now' prefs
        (runPipeline c cfg now prefs st).state).evaluations = [] ∧
    (runPipeline c cfg now prefs st).state.ledger.Nodup ∧
    (∀ i ∈ (runPipeline c cfg now prefs st).state.ledger,
        (runPipeline c cfg now prefs st).state.ledger.count i = 1) := by
  have hled : (runPipeline c cfg now prefs st).state.ledger
      = ((scoreStep c prefs (filterStep cfg st.ledger
            (fetchStep c prefs).1)).map (fun pr => pr.1.id)).foldl
          markProcessed st.ledger := by
    have hst : (runPipeline c cfg now prefs st).state
        = (enqueueStep c cfg now st (scoreStep c prefs
            (filterStep cfg st.ledger (fetchStep c prefs).1))).1 := rfl
    rw [hst, enqueueStep_ledger]
  have hsurv : filterStep cfg st.ledger (fetchStep c prefs).1
      = (fetchStep c prefs).1.filter (keepCandidate st.ledger) :=
    List.take_of_length_le hcap
  have hnodup1 : (runPipeline c cfg now prefs st).state.ledger.Nodup := by
    rw [hled]
    exact nodup_foldl_markProcessed _ _ hnodup
  have hnil : scoreStep c prefs
      (filterStep cfg (runPipeline c cfg now prefs st).state.ledger
        (fetchStep c prefs).1) = [] := by
    unfold scoreStep
    apply List.filterMap_eq_nil_iff.mpr
    intro pe hpe
    have h1 : pe ∈ ((fetchStep c prefs).1.filter
        (keepCandidate (runPipeline c cfg now prefs st).state.ledger)) :=
      (List.take_sublist _ _).subset hpe
    have h2 := List.mem_filter.mp h1
    have hdur : withinDuration pe.1 pe.2 = true := by
      have := h2.2
      simp only [keepCandidate, Bool.and_eq_true] at this
      exact this.2
    have hnot1 : pe.2.id ∉ (runPipeline c cfg now prefs st).state.ledger := by
      have := h2.2
      simp only [keepCandidate, Bool.and_eq_true] at this
      have h3 := this.1
      simp at h3
      exact h3
    have hnot0 : pe.2.id ∉ st.ledger := by
      intro hm
      apply hnot1
      rw [hled]
      exact (mem_foldl_markProcessed _ _ _).mpr (Or.inl hm)
    have hkeep0 : keepCandidate st.ledger pe = true := by
      simp [keepCandidate, hnot0, hdur]
    have hmem1 : pe ∈ filterStep cfg st.ledger (fetchStep c prefs).1 := by
      rw [hsurv]
      exact List.mem_filter.mpr ⟨h2.1, hkeep0⟩
    cases hev : c.evaluate pe.2 prefs with
    | error msg => simp [hev]
    | ok ev =>
      exfalso
      apply hnot1
      rw [hled]
      apply (mem_foldl_markProcessed _ _ _).mpr
      refine Or.inr (List.mem_map.mpr ⟨(pe.2, ev), ?_, rfl⟩)
      unfold scoreStep
      exact List.mem_filterMap.mpr ⟨pe, hmem1, by simp [hev]⟩
  refine ⟨?_, hnodup1, ?_⟩
  · have hev2 : (runPipeline c cfg now' prefs
        (runPipeline c cfg now prefs st).state).evaluations
        = (scoreStep c prefs
            (filterStep cfg (runPipeline c cfg now prefs st).state.ledger
              (fetchStep c prefs).1)).map (fun pr => pr.2) := rfl
    rw [hev2, hnil]
    rfl
  · intro i hi
    exact List.count_eq_one_of_mem hnodup1 hi

/-- Witness for C2 (amended): a single always-relevant candidate within the
cap is evaluated in the first run and never again in the second. -/
theorem c2_no_reevaluation_when_within_cap_witness :
    ([] : List String).Nodup ∧
    ((fetchStep (exCollab [exEpisodeA]) [exPref]).1.filter
        (keepCandidate [])).length ≤ 5 ∧
    (runPipeline (exCollab [exEpisodeA]) ⟨mkRat 1 2, 5⟩ 1 [exPref]
        (runPipeline (exCollab [exEpisodeA]) ⟨mkRat 1 2, 5⟩ 0 [exPref]
          ⟨[], []⟩).state).evaluations = [] :=
  ⟨List.nodup_nil, by decide,
   (c2_no_reevaluation_when_within_cap (exCollab [exEpisodeA])
      ⟨mkRat 1 2, 5⟩ 0 1 [exPref] ⟨[], []⟩ List.nodup_nil (by decide)).1⟩

end SpotifyAgent
